import Mathlib

/-!
Shallow embedding of the fetcher-mcp core (src/services/browserService.ts,
src/services/webContentProcessor.ts, src/tools/fetchUrls.ts,
src/tools/closeBrowser.ts, src/types/index.ts) in Lean 4, together with
theorems settling the specification claims about argument parsing, the
content pipeline, the page fetch unit, batch aggregation, and the
browser/session lifecycle.

JavaScript strings are modelled as Lean strings, JS numbers as integers
(the numeric option paths the claims touch never involve fractional
values or NaN arithmetic beyond the Number() coercion modelled below),
exceptions as Except String, and the external collaborators
(Readability, Turndown, Playwright pages) as explicit oracle functions
and records, so that every definition below mirrors one function of the
TypeScript source.
-/

/-! ## JavaScript value model (tool arguments) -/

/-- Subset of JavaScript runtime values that can arrive as tool arguments. -/
inductive JSValue where
  | undefined
  | null
  | bool (b : Bool)
  | num (n : Int)
  | str (s : String)
  | arr (elems : List JSValue)
  deriving Repr

/-- JavaScript truthiness: undefined, null, false, 0 and the empty string are
falsy; every other modelled value (including the empty array) is truthy. -/
def truthy : JSValue → Bool
  | .undefined => false
  | .null => false
  | .bool b => b
  | .num n => n != 0
  | .str s => s != ""
  | .arr _ => true

/-- JavaScript strict equality of a value against a boolean literal: only a
boolean compares equal to a boolean under ===; every other type yields false. -/
def jsStrictEqBool (v : JSValue) (b : Bool) : Bool :=
  match v with
  | .bool c => c == b
  | _ => false

mutual

/-- JavaScript String() coercion / template-literal interpolation for the
modelled values (an array stringifies as its comma-joined elements). -/
def jsToString : JSValue → String
  | .undefined => "undefined"
  | .null => "null"
  | .bool b => if b then "true" else "false"
  | .num n => toString n
  | .str s => s
  | .arr l => String.intercalate "," (jsToStringList l)

/-- String() coercion mapped over the elements of an array value. -/
def jsToStringList : List JSValue → List String
  | [] => []
  | v :: vs => jsToString v :: jsToStringList vs

end

/-- JavaScript Number() coercion on the modelled values; none stands for NaN.
String-to-number parsing is not modelled (no claim depends on numeric strings);
a string maps to none like any other non-numeric shape. -/
def jsToNumber : JSValue → Option Int
  | .null => some 0
  | .bool b => some (if b then 1 else 0)
  | .num n => some n
  | _ => none

/-- Coercion pattern `Number(v) || dflt` from fetchUrls: NaN and 0 both fall
back to the default. -/
def numOr (v : JSValue) (dflt : Int) : Int :=
  match jsToNumber v with
  | some n => if n = 0 then dflt else n
  | none => dflt

/-- Coercion pattern `String(v || "load")` for the waitUntil option. -/
def strOrLoad (v : JSValue) : String :=
  if truthy v then jsToString v else "load"

/-- Argument object of the fetch_urls tool; a field holds none when the
property is absent (JS optional chaining then yields undefined). -/
structure FetchArgs where
  urls : Option JSValue := none
  timeout : Option JSValue := none
  waitUntil : Option JSValue := none
  extractContent : Option JSValue := none
  maxLength : Option JSValue := none
  returnHtml : Option JSValue := none
  waitForNavigation : Option JSValue := none
  navigationTimeout : Option JSValue := none
  disableMedia : Option JSValue := none
  deriving Repr

/-- Optional-chaining access `args?.field`: an absent property reads as
undefined. -/
def field (o : Option JSValue) : JSValue :=
  o.getD JSValue.undefined

/-- FetchOptions record from src/types/index.ts (waitUntil kept as the raw
string the TS cast passes through unvalidated). -/
structure FetchOptions where
  timeout : Int
  waitUntil : String
  extractContent : Bool
  maxLength : Int
  returnHtml : Bool
  waitForNavigation : Bool
  navigationTimeout : Int
  disableMedia : Bool
  deriving Repr, DecidableEq

/-- Option parsing of fetchUrls (src/tools/fetchUrls.ts lines 543-552):
  timeout := Number(args?.timeout) || 30000,
  waitUntil := String(args?.waitUntil || "load"),
  extractContent := args?.extractContent !== false,
  maxLength := Number(args?.maxLength) || 0,
  returnHtml := args?.returnHtml === true,
  waitForNavigation := args?.waitForNavigation === true,
  navigationTimeout := Number(args?.navigationTimeout) || 10000,
  disableMedia := args?.disableMedia !== false. -/
def optionsOfArgs (args : FetchArgs) : FetchOptions :=
  { timeout := numOr (field args.timeout) 30000
    waitUntil := strOrLoad (field args.waitUntil)
    extractContent := !(jsStrictEqBool (field args.extractContent) false)
    maxLength := numOr (field args.maxLength) 0
    returnHtml := jsStrictEqBool (field args.returnHtml) true
    waitForNavigation := jsStrictEqBool (field args.waitForNavigation) true
    navigationTimeout := numOr (field args.navigationTimeout) 10000
    disableMedia := !(jsStrictEqBool (field args.disableMedia) false) }

/-! ## FetchResult and the content pipeline -/

/-- FetchResult from src/types/index.ts: success flag, formatted content,
optional error message, optional batch index. -/
structure FetchResult where
  success : Bool
  content : String
  error : Option String := none
  index : Option Nat := none
  deriving Repr, DecidableEq

/-- External collaborators of the content pipeline, modelled as oracles:
readabilityParse html url returns the extracted article content, or none when
Readability yields no article; turndown is the HTML-to-Markdown converter. -/
structure ContentOracles where
  readabilityParse : String → String → Option String
  turndown : String → String

/-- Extraction and conversion stages of WebContentProcessor.processContent
(src/services/webContentProcessor.ts): optional Readability extraction with
fallback to the full markup, then optional Markdown conversion. -/
def pipelineText (opts : FetchOptions) (ext : ContentOracles) (html url : String) : String :=
  let contentToProcess :=
    if opts.extractContent then
      match ext.readabilityParse html url with
      | none => html
      | some article => article
    else html
  if !opts.returnHtml then ext.turndown contentToProcess else contentToProcess

/-- JavaScript s.substring(0, n) for nonnegative n within our model. -/
def jsSubstringTo (s : String) (n : Nat) : String :=
  String.mk (s.data.take n)

/-- WebContentProcessor.processContent: extraction, conversion, then a hard
truncation to maxLength characters when maxLength > 0 and the text is longer. -/
def processContent (opts : FetchOptions) (ext : ContentOracles) (html url : String) : String :=
  let processedContent := pipelineText opts ext html url
  if opts.maxLength > 0 && (processedContent.length : Int) > opts.maxLength then
    jsSubstringTo processedContent opts.maxLength.toNat
  else
    processedContent

/-! ## Page fetch unit -/

/-- Behaviour of one Playwright page handle, as observed by
processPageContent: each awaited page operation either succeeds or raises
(Except.error carries the exception message). navWaitResult is the outcome of
the Promise.race between page.waitForNavigation and the explicit timer: ok
when a subsequent navigation happened, error when the race rejected
(navigation timeout / no further navigation). -/
structure PageModel where
  setTimeoutResult : Except String Unit
  gotoResult : Except String Unit
  navWaitResult : Except String Unit
  titleResult : Except String String
  contentResult : Except String String
  deriving Repr

/-- Navigation-wait block of processPageContent (browserService.ts lines
310-348): when waitForNavigation is set, the race outcome is awaited, and both
the .catch on the race and the surrounding try/catch swallow every failure and
continue, so the step itself never propagates an exception. -/
def navWaitStep (opts : FetchOptions) (page : PageModel) : Except String Unit :=
  if opts.waitForNavigation then
    match page.navWaitResult with
    | .ok _ => .ok ()
    | .error _ => .ok ()
  else .ok ()

/-- Failure body format shared by the empty-content path and the catch-all
path of processPageContent. -/
def errorBody (url msg : String) : String :=
  "Title: Error\nURL: " ++ url ++ "\nContent:\n\n<error>Failed to retrieve web page content: "
    ++ msg ++ "</error>"

/-- Try-block of WebContentProcessor.processPageContent: timeout setup,
navigation, the (self-contained) navigation wait, title and content retrieval,
the empty-markup soft failure, the content pipeline, and final formatting.
Each awaited step propagates its exception to the next enclosing handler,
written here as explicit sequencing of Except values. -/
def processPageContentE (opts : FetchOptions) (ext : ContentOracles) (page : PageModel)
    (url : String) : Except String FetchResult :=
  match page.setTimeoutResult with
  | .error m => .error m
  | .ok _ =>
    match page.gotoResult with
    | .error m => .error m
    | .ok _ =>
      match navWaitStep opts page with
      | .error m => .error m
      | .ok _ =>
        match page.titleResult with
        | .error m => .error m
        | .ok pageTitle =>
          match page.contentResult with
          | .error m => .error m
          | .ok html =>
            if html = "" then
              .ok { success := false
                    content := errorBody url "Browser returned empty content"
                    error := some "Browser returned empty content" }
            else
              .ok { success := true
                    content := "Title: " ++ pageTitle ++ "\nURL: " ++ url ++ "\nContent:\n\n"
                      ++ processContent opts ext html url }

/-- WebContentProcessor.processPageContent: the try-block wrapped in the
unit-boundary catch that turns any escaped exception into a success=false
FetchResult carrying the exception message. -/
def processPageContent (opts : FetchOptions) (ext : ContentOracles) (page : PageModel)
    (url : String) : FetchResult :=
  match processPageContentE opts ext page url with
  | .ok r => r
  | .error errorMessage =>
    { success := false
      content := errorBody url errorMessage
      error := some errorMessage }

/-! ## Batch orchestrator (fetch_urls tool) -/

/-- Coercion `(args?.urls as string[]) || []` from fetchUrls line 538: a falsy
urls value is replaced by an empty array; a truthy one passes through. -/
def jsUrlsOf (args : FetchArgs) : JSValue :=
  let v := field args.urls
  if truthy v then v else JSValue.arr []

/-- Validation at the head of fetchUrls (lines 538-541): after the || []
coercion the value is required to be an array of positive length, otherwise
the tool throws before any browser work. -/
def validateUrls (args : FetchArgs) : Except String (List JSValue) :=
  match jsUrlsOf args with
  | JSValue.arr l =>
    if l.length = 0 then
      Except.error "URLs parameter is required and must be a non-empty array"
    else Except.ok l
  | _ => Except.error "URLs parameter is required and must be a non-empty array"

/-- Browser-lifecycle events observable during a fetch_urls call.
launchOwnBrowser and closeOwnBrowser are the chromium.launch / browser.close
calls the tool performs on a browser of its own; acquireSharedBrowser would be
an acquisition through the BrowserService singleton (the Session Manager). -/
inductive BrowserEvent where
  | launchOwnBrowser
  | newContext
  | newPage (url : String)
  | closePage (url : String)
  | closeOwnBrowser
  | acquireSharedBrowser
  deriving Repr, DecidableEq

/-- Per-URL task of fetchUrls (lines 574-585): run the page fetch unit on a
fresh page and attach the captured input index to the result. -/
def taskResult (opts : FetchOptions) (ext : ContentOracles) (pages : JSValue → PageModel)
    (i : Nat) (u : JSValue) : FetchResult :=
  { processPageContent opts ext (pages u) (jsToString u) with index := some i }

/-- Settled results of Promise.all over the per-URL tasks, in input order
(Promise.all preserves the input ordering of its result array). -/
def taskResults (opts : FetchOptions) (ext : ContentOracles) (pages : JSValue → PageModel)
    (urls : List JSValue) : List FetchResult :=
  urls.enum.map fun p => taskResult opts ext pages p.1 p.2

/-- Comparator of the sort at fetchUrls line 589,
(a, b) => (a.index || 0) - (b.index || 0), as a boolean ordering. -/
def resultLe (a b : FetchResult) : Bool :=
  a.index.getD 0 ≤ b.index.getD 0

/-- Delimited segment of the combined output (line 591), i being the 0-based
position in the output ordering. -/
def segmentWrap (i : Nat) (content : String) : String :=
  "[webpage " ++ toString (i + 1) ++ " begin]\n" ++ content ++ "\n[webpage "
    ++ toString (i + 1) ++ " end]"

/-- Aggregation step of fetchUrls (lines 589-592): sort the settled results by
their captured index, wrap each in its delimiters numbered by output position,
and join with blank lines. -/
def combineResults (results : List FetchResult) : String :=
  String.intercalate "\n\n"
    ((results.mergeSort resultLe).enum.map fun p => segmentWrap p.1 p.2.content)

/-- Page events of one per-URL task: a fresh page is opened, and closed in the
task's finally block unless debug mode keeps it open. -/
def pageEvents (isDebugMode : Bool) (u : JSValue) : List BrowserEvent :=
  BrowserEvent.newPage (jsToString u)
    :: (if isDebugMode then [] else [BrowserEvent.closePage (jsToString u)])

/-- Implementation of the fetch_urls tool (src/tools/fetchUrls.ts lines
537-604): validate, parse options, launch a browser of its own, open a
context, run the per-URL tasks concurrently, aggregate, and in the finally
block close that browser unless in debug mode. Returns the emitted
browser-lifecycle events alongside the thrown-or-returned outcome; a
validation failure throws before any browser work, so its trace is empty. -/
def fetchUrlsRun (isDebugMode : Bool) (args : FetchArgs) (ext : ContentOracles)
    (pages : JSValue → PageModel) : List BrowserEvent × Except String String :=
  match validateUrls args with
  | Except.error m => ([], Except.error m)
  | Except.ok urls =>
    let opts := optionsOfArgs args
    let combined := combineResults (taskResults opts ext pages urls)
    let trace :=
      [BrowserEvent.launchOwnBrowser, BrowserEvent.newContext]
        ++ urls.flatMap (pageEvents isDebugMode)
        ++ (if isDebugMode then [] else [BrowserEvent.closeOwnBrowser])
    (trace, Except.ok combined)

/-! ## Session/Browser manager (BrowserService) and close_browser tool -/

/-- Mutable instance fields of a BrowserService object that the claims
observe: the lazily created browser and context handles (modelled by numeric
ids). -/
structure BrowserServiceState where
  browser : Option Nat := none
  context : Option Nat := none
  deriving Repr, DecidableEq

/-- Process-level state: the BrowserService singleton (BrowserService.instance),
the content of the persisted session-state file at STORAGE_STATE_PATH (none
when the file does not exist), the live session state held by the browser
context (cookies/storage that browsing mutates), and a counter supplying fresh
handle ids. -/
structure ServerState where
  inst : Option BrowserServiceState := none
  storageFile : Option String := none
  contextState : String := "{}"
  nextId : Nat := 0
  deriving Repr, DecidableEq

/-- Serialized empty session state written by createContext when the file is
absent (JSON.stringify of an empty object). -/
def emptyStateJson : String := "{}"

/-- BrowserService.getOrCreateBrowser (lines 179-184): reuse the existing
browser handle or launch one lazily. Returns the handle and the new state. -/
def getOrCreateBrowser (svc : BrowserServiceState) (s : ServerState) :
    Nat × BrowserServiceState × ServerState :=
  match svc.browser with
  | some b => (b, svc, s)
  | none => (s.nextId, { svc with browser := some s.nextId }, { s with nextId := s.nextId + 1 })

/-- BrowserService.createContext (lines 189-231) restricted to its session
file effect: when the persisted file is missing it is initialized to an empty
serialized state, then the context loads the file as its storageState. -/
def createContextFileEffect (s : ServerState) : ServerState :=
  if s.storageFile.isSome then s else { s with storageFile := some emptyStateJson }

/-- BrowserService.getOrCreateContext (lines 236-243): reuse the existing
context, or create one (initializing the session file if absent). -/
def getOrCreateContext (svc : BrowserServiceState) (s : ServerState) :
    Nat × BrowserServiceState × ServerState :=
  match svc.context with
  | some c => (c, svc, s)
  | none =>
    let s' := createContextFileEffect s
    (s'.nextId, { svc with context := some s'.nextId }, { s' with nextId := s'.nextId + 1 })

/-- BrowserService.cleanup (lines 267-280): when a browser exists, first
serialize the context session state to the persisted file (only when a context
exists too), then close the browser and null it; in every case clear the
singleton. -/
def cleanup (svc : BrowserServiceState) (s : ServerState) : ServerState :=
  let s₁ :=
    if svc.browser.isSome then
      if svc.context.isSome then { s with storageFile := some s.contextState } else s
    else s
  { s₁ with inst := none }

/-- Implementation of the close_browser tool (src/tools/closeBrowser.ts lines
452-465): a missing singleton reports that no active browser instance exists;
otherwise cleanup runs and a confirmation message is returned. -/
def closeBrowser (s : ServerState) : ServerState × String :=
  match s.inst with
  | none => (s, "No active browser instance found.")
  | some svc => (cleanup svc s, "Storage state saved and Browser closed successfully.")

/-- Operations of the process-level state machine that can touch the
persisted session-state file. browse models page activity mutating the live
context state; fetchUrlsOp is the batch tool, which uses a browser of its own
without a storageState and never touches the file; fetchPageOp is one page
fetch unit run (pure with respect to the file system). -/
inductive SMOp where
  | createOrGetInstanceOp
  | getOrCreateBrowserOp
  | getOrCreateContextOp
  | fetchPageOp
  | fetchUrlsOp
  | browseOp (newState : String)
  | cleanupOp
  deriving Repr, DecidableEq

/-- Transition function of the process-level state machine, assembled from
the embedded operations above. -/
def smStep (s : ServerState) : SMOp → ServerState
  | .createOrGetInstanceOp =>
    match s.inst with
    | some _ => s
    | none => { s with inst := some {} }
  | .getOrCreateBrowserOp =>
    match s.inst with
    | none => s
    | some svc =>
      let (_, svc', s') := getOrCreateBrowser svc s
      { s' with inst := some svc' }
  | .getOrCreateContextOp =>
    match s.inst with
    | none => s
    | some svc =>
      let (_, svc', s') := getOrCreateContext svc s
      { s' with inst := some svc' }
  | .fetchPageOp => s
  | .fetchUrlsOp => s
  | .browseOp newState => { s with contextState := newState }
  | .cleanupOp => (closeBrowser s).1

/-- Run of a sequence of state-machine operations. -/
def smRun (s : ServerState) : List SMOp → ServerState
  | [] => s
  | op :: ops => smRun (smStep s op) ops

/-! ## Shared fixtures and helper lemmas -/

/-- Oracles where Readability finds no article and Turndown is the identity. -/
def extIdOracles : ContentOracles :=
  { readabilityParse := fun _ _ => none, turndown := fun s => s }

/-- Page model whose every awaited operation succeeds. -/
def okPage (t html : String) : PageModel :=
  { setTimeoutResult := .ok (), gotoResult := .ok (), navWaitResult := .ok ()
    titleResult := .ok t, contentResult := .ok html }

/-- Options parsed from an empty argument object: all documented defaults. -/
def defaultOpts : FetchOptions := optionsOfArgs {}

theorem append_ne_empty_of_left (a b : String) (h : a ≠ "") : a ++ b ≠ "" := by
  intro hab
  apply h
  have hd := congrArg String.data hab
  rw [String.data_append] at hd
  rcases List.append_eq_nil.mp hd with ⟨h1, _⟩
  exact String.ext h1

theorem navWaitStep_ok (opts : FetchOptions) (page : PageModel) :
    navWaitStep opts page = Except.ok () := by
  unfold navWaitStep
  by_cases h : opts.waitForNavigation = true
  · rw [if_pos h]; cases page.navWaitResult <;> rfl
  · rw [if_neg h]

theorem jsStrictEqBool_field_iff (o : Option JSValue) (b : Bool) :
    jsStrictEqBool (field o) b = true ↔ o = some (JSValue.bool b) := by
  cases o with
  | none => simp [field, jsStrictEqBool]
  | some v => cases v <;> simp [field, jsStrictEqBool]

theorem not_jsStrictEqBool_field_false_iff (o : Option JSValue) (b : Bool) :
    (!(jsStrictEqBool (field o) b)) = false ↔ o = some (JSValue.bool b) := by
  rw [← jsStrictEqBool_field_iff o b]
  cases jsStrictEqBool (field o) b <;> simp

theorem errorBody_ne_empty (url m : String) : errorBody url m ≠ "" := by
  unfold errorBody
  repeat' apply append_ne_empty_of_left
  decide

theorem header_ne_empty (t url rest : String) :
    "Title: " ++ t ++ "\nURL: " ++ url ++ "\nContent:\n\n" ++ rest ≠ "" := by
  repeat' apply append_ne_empty_of_left
  decide

/-- C10: boolean option parsing in fetch_urls is asymmetric: extractContent and
disableMedia come out true for every supplied value except the boolean false
(any other truthy or falsy value, e.g. the string "false" or the number 0,
still yields true), while returnHtml and waitForNavigation come out true only
when the supplied value is exactly the boolean true. -/
theorem fetchUrls_boolean_option_asymmetry (args : FetchArgs) :
    ((optionsOfArgs args).extractContent = false
        ↔ args.extractContent = some (JSValue.bool false))
    ∧ ((optionsOfArgs args).disableMedia = false
        ↔ args.disableMedia = some (JSValue.bool false))
    ∧ ((optionsOfArgs args).returnHtml = true
        ↔ args.returnHtml = some (JSValue.bool true))
    ∧ ((optionsOfArgs args).waitForNavigation = true
        ↔ args.waitForNavigation = some (JSValue.bool true)) :=
  ⟨not_jsStrictEqBool_field_false_iff args.extractContent false,
   not_jsStrictEqBool_field_false_iff args.disableMedia false,
   jsStrictEqBool_field_iff args.returnHtml true,
   jsStrictEqBool_field_iff args.waitForNavigation true⟩

/-- C3: processContent returns a string of exactly maxLength characters when
maxLength > 0 and the post-extraction/post-conversion text is longer (hard
cut), and returns that text unmodified when maxLength = 0 or the text does not
exceed maxLength. -/
theorem processContent_truncation (opts : FetchOptions) (ext : ContentOracles)
    (html url : String) :
    ((0 < opts.maxLength ∧ opts.maxLength < ((pipelineText opts ext html url).length : Int)) →
      ((processContent opts ext html url).length : Int) = opts.maxLength)
    ∧ ((opts.maxLength = 0 ∨ ((pipelineText opts ext html url).length : Int) ≤ opts.maxLength) →
      processContent opts ext html url = pipelineText opts ext html url) := by
  constructor
  · rintro ⟨h1, h2⟩
    unfold processContent
    rw [if_pos (by simp only [Bool.and_eq_true, decide_eq_true_eq]; exact ⟨h1, h2⟩)]
    have hlen : (jsSubstringTo (pipelineText opts ext html url) opts.maxLength.toNat).length
        = opts.maxLength.toNat ⊓ (pipelineText opts ext html url).length := by
      have hdef : (jsSubstringTo (pipelineText opts ext html url) opts.maxLength.toNat).length
          = ((pipelineText opts ext html url).data.take opts.maxLength.toNat).length := rfl
      rw [hdef, List.length_take]
      rfl
    rw [hlen]
    have hle : opts.maxLength.toNat ≤ (pipelineText opts ext html url).length := by omega
    rw [min_eq_left hle]
    omega
  · intro h
    unfold processContent
    rw [if_neg]
    simp only [Bool.and_eq_true, decide_eq_true_eq, not_and, not_lt]
    intro h1
    rcases h with h | h
    · omega
    · exact h

/-- C3 witness: with maxLength 3 and a 6-character pipeline text the output has
exactly 3 characters. -/
theorem processContent_truncation_witness :
    ((processContent { defaultOpts with maxLength := 3 } extIdOracles "abcdef" "u").length : Int)
      = 3 :=
  (processContent_truncation { defaultOpts with maxLength := 3 } extIdOracles "abcdef" "u").1
    (by constructor <;> decide)

/-- C4: every FetchResult produced by processPageContent, on the success path,
the empty-markup soft failure and the catch-all path alike, has nonempty
content and carries an error message exactly when success is false. -/
theorem processPageContent_result_invariant (opts : FetchOptions) (ext : ContentOracles)
    (page : PageModel) (url : String) :
    (processPageContent opts ext page url).content ≠ ""
    ∧ ((processPageContent opts ext page url).error.isSome
        ↔ (processPageContent opts ext page url).success = false) := by
  obtain ⟨st, gt, nw, ti, co⟩ := page
  rcases st with m | u
  · simp [processPageContent, processPageContentE, errorBody_ne_empty]
  rcases gt with m | u2
  · simp [processPageContent, processPageContentE, errorBody_ne_empty]
  rcases ti with m | t
  · simp [processPageContent, processPageContentE, navWaitStep_ok, errorBody_ne_empty]
  rcases co with m | html
  · simp [processPageContent, processPageContentE, navWaitStep_ok, errorBody_ne_empty]
  by_cases hh : html = ""
  · simp [processPageContent, processPageContentE, navWaitStep_ok, hh, errorBody_ne_empty]
  · simp [processPageContent, processPageContentE, navWaitStep_ok, hh, errorBody_ne_empty,
      header_ne_empty]

/-- C5: with waitForNavigation set, a navigation-wait timeout (the race
rejecting) is not an error: absent other failures the fetch returns
success=true with the content the page already holds. -/
theorem navigation_timeout_not_error (opts : FetchOptions) (ext : ContentOracles)
    (page : PageModel) (url t html e : String)
    (hw : opts.waitForNavigation = true)
    (hnav : page.navWaitResult = Except.error e)
    (h1 : page.setTimeoutResult = Except.ok ())
    (h2 : page.gotoResult = Except.ok ())
    (h3 : page.titleResult = Except.ok t)
    (h4 : page.contentResult = Except.ok html)
    (h5 : html ≠ "") :
    processPageContent opts ext page url =
      { success := true
        content := "Title: " ++ t ++ "\nURL: " ++ url ++ "\nContent:\n\n"
          ++ processContent opts ext html url } := by
  simp [processPageContent, processPageContentE, h1, h2, h3, h4, navWaitStep_ok, h5]

/-- C5 witness: a concrete navigation-timeout page still yields success=true
with the initially loaded content. -/
theorem navigation_timeout_not_error_witness :
    processPageContent { defaultOpts with waitForNavigation := true } extIdOracles
        { okPage "T" "hello" with navWaitResult := Except.error "Navigation timeout" }
        "https://e.com" =
      { success := true
        content := "Title: " ++ "T" ++ "\nURL: " ++ "https://e.com" ++ "\nContent:\n\n"
          ++ processContent { defaultOpts with waitForNavigation := true } extIdOracles
              "hello" "https://e.com" } :=
  navigation_timeout_not_error { defaultOpts with waitForNavigation := true } extIdOracles
    { okPage "T" "hello" with navWaitResult := Except.error "Navigation timeout" }
    "https://e.com" "T" "hello" "Navigation timeout"
    rfl rfl rfl rfl rfl rfl (by decide)

/-! ## Claims about the unit boundary, validation and the session lifecycle -/

/-- Page model at which the navigation wait raises while every other awaited
operation succeeds. -/
def navTimeoutPage : PageModel :=
  { okPage "Example" "<html>hi</html>" with navWaitResult := Except.error "Navigation timeout" }

/-- Options with waitForNavigation enabled. -/
def navOpts : FetchOptions := { defaultOpts with waitForNavigation := true }

/-- C2 counterexample: an exception raised during the navigation wait is not
converted into a success=false FetchResult at the unit boundary: at this
concrete input the navigation wait raises, yet the unit returns success=true
with no error field. -/
theorem processPageContent_navwait_not_converted :
    navOpts.waitForNavigation = true
    ∧ navTimeoutPage.navWaitResult = Except.error "Navigation timeout"
    ∧ (processPageContent navOpts extIdOracles navTimeoutPage "https://e.com").success = true
    ∧ (processPageContent navOpts extIdOracles navTimeoutPage "https://e.com").error = none :=
  ⟨rfl, rfl, rfl, rfl⟩

/-- C2 amended: the page fetch unit is a total function (it never raises to
its caller); an exception that reaches the unit boundary is converted into a
success=false FetchResult carrying the message inside the Title: Error body;
only timeout setup, navigation, title retrieval and content retrieval can
raise to the boundary (a navigation-wait exception is swallowed by the inner
handler and processing continues); and every failure result is of that
well-formed shape. -/
theorem processPageContent_unit_boundary (opts : FetchOptions) (ext : ContentOracles)
    (page : PageModel) (url : String) :
    (∀ m, processPageContentE opts ext page url = Except.error m →
      processPageContent opts ext page url
        = { success := false, content := errorBody url m, error := some m })
    ∧ (∀ m, processPageContentE opts ext page url = Except.error m →
      page.setTimeoutResult = Except.error m ∨ page.gotoResult = Except.error m
        ∨ page.titleResult = Except.error m ∨ page.contentResult = Except.error m)
    ∧ ((processPageContent opts ext page url).success = false →
      ∃ m, (processPageContent opts ext page url).error = some m
        ∧ (processPageContent opts ext page url).content = errorBody url m) := by
  refine ⟨?_, ?_, ?_⟩
  · intro m h
    unfold processPageContent
    rw [h]
  · intro m h
    obtain ⟨st, gt, nw, ti, co⟩ := page
    rcases st with m1 | u1
    · simp [processPageContentE] at h
      subst h
      exact Or.inl rfl
    rcases gt with m2 | u2
    · simp [processPageContentE] at h
      subst h
      exact Or.inr (Or.inl rfl)
    rcases ti with m3 | t
    · simp [processPageContentE, navWaitStep_ok] at h
      subst h
      exact Or.inr (Or.inr (Or.inl rfl))
    rcases co with m4 | html
    · simp [processPageContentE, navWaitStep_ok] at h
      subst h
      exact Or.inr (Or.inr (Or.inr rfl))
    · simp [processPageContentE, navWaitStep_ok] at h
      split at h <;> cases h
  · obtain ⟨st, gt, nw, ti, co⟩ := page
    rcases st with m1 | u1
    · simp [processPageContent, processPageContentE]
    rcases gt with m2 | u2
    · simp [processPageContent, processPageContentE]
    rcases ti with m3 | t
    · simp [processPageContent, processPageContentE, navWaitStep_ok]
    rcases co with m4 | html
    · simp [processPageContent, processPageContentE, navWaitStep_ok]
    by_cases hh : html = ""
    · simp [processPageContent, processPageContentE, navWaitStep_ok, hh]
    · simp [processPageContent, processPageContentE, navWaitStep_ok, hh]

/-- C2 amended witness: a concrete navigation failure is converted into the
failure-shaped result at the unit boundary. -/
theorem processPageContent_unit_boundary_witness :
    processPageContent defaultOpts extIdOracles
        { okPage "T" "h" with gotoResult := Except.error "net::ERR_FAILED" } "https://e.com"
      = { success := false, content := errorBody "https://e.com" "net::ERR_FAILED"
          error := some "net::ERR_FAILED" } :=
  (processPageContent_unit_boundary defaultOpts extIdOracles
      { okPage "T" "h" with gotoResult := Except.error "net::ERR_FAILED" } "https://e.com").1
    "net::ERR_FAILED" rfl

theorem validateUrls_error_iff (args : FetchArgs) :
    (∃ m, validateUrls args = Except.error m)
      ↔ ¬ ∃ l, args.urls = some (JSValue.arr l) ∧ l ≠ [] := by
  rcases hu : args.urls with _ | v
  · simp [validateUrls, jsUrlsOf, field, hu, truthy]
  · cases v with
    | undefined => simp [validateUrls, jsUrlsOf, field, hu, truthy]
    | null => simp [validateUrls, jsUrlsOf, field, hu, truthy]
    | bool b => cases b <;> simp [validateUrls, jsUrlsOf, field, hu, truthy]
    | num n => by_cases hn : n = 0 <;> simp [validateUrls, jsUrlsOf, field, hu, truthy, hn]
    | str s => by_cases hs : s = "" <;> simp [validateUrls, jsUrlsOf, field, hu, truthy, hs]
    | arr l => cases l <;> simp [validateUrls, jsUrlsOf, field, hu, truthy]

/-- C7: fetch_urls throws at the tool boundary exactly when the urls argument
is missing, not an array, or an empty array, and any such throw happens before
any browser work (the event trace is empty); a non-empty array never triggers
the validation error. -/
theorem fetchUrls_validation_boundary (dbg : Bool) (args : FetchArgs) (ext : ContentOracles)
    (pages : JSValue → PageModel) :
    ((∃ m, (fetchUrlsRun dbg args ext pages).2 = Except.error m)
        ↔ ¬ ∃ l, args.urls = some (JSValue.arr l) ∧ l ≠ [])
    ∧ (∀ m, (fetchUrlsRun dbg args ext pages).2 = Except.error m →
        (fetchUrlsRun dbg args ext pages).1 = []) := by
  constructor
  · rw [← validateUrls_error_iff args]
    cases hv : validateUrls args with
    | error m => simp [fetchUrlsRun, hv]
    | ok urls => simp [fetchUrlsRun, hv]
  · intro m h
    cases hv : validateUrls args with
    | error m2 => simp [fetchUrlsRun, hv]
    | ok urls => simp [fetchUrlsRun, hv] at h

/-- C8: close_browser is idempotent and safe with no active instance: any
call leaves no singleton behind, an immediate second call reports no active
instance and does not change the state, a call with no instance is a no-op
with that same report, and a call with an instance confirms teardown,
persisting the live session state whenever browser and context exist. -/
theorem closeBrowser_idempotent_safe (s : ServerState) :
    ((closeBrowser s).1.inst = none)
    ∧ (closeBrowser (closeBrowser s).1
        = ((closeBrowser s).1, "No active browser instance found."))
    ∧ (s.inst = none → closeBrowser s = (s, "No active browser instance found."))
    ∧ (∀ svc, s.inst = some svc →
        (closeBrowser s).2 = "Storage state saved and Browser closed successfully."
        ∧ (svc.browser.isSome = true → svc.context.isSome = true →
            (closeBrowser s).1.storageFile = some s.contextState)) := by
  cases hs : s.inst with
  | none => simp [closeBrowser, hs]
  | some svc =>
    refine ⟨?_, ?_, ?_, ?_⟩
    · simp [closeBrowser, hs, cleanup]
    · simp [closeBrowser, hs, cleanup]
    · intro h; simp at h
    · intro svc2 h
      injection h with h
      subst h
      refine ⟨by simp [closeBrowser, hs], ?_⟩
      intro hb hc
      simp [closeBrowser, hs, cleanup, hb, hc]

theorem smStep_file (s : ServerState) (op : SMOp) (hop : op ≠ SMOp.cleanupOp) :
    (smStep s op).storageFile = s.storageFile
      ∨ (s.storageFile = none ∧ (smStep s op).storageFile = some emptyStateJson) := by
  cases op with
  | createOrGetInstanceOp => cases hs : s.inst <;> simp [smStep, hs]
  | getOrCreateBrowserOp =>
    cases hs : s.inst with
    | none => simp [smStep, hs]
    | some svc => cases hb : svc.browser <;> simp [smStep, hs, getOrCreateBrowser, hb]
  | getOrCreateContextOp =>
    cases hs : s.inst with
    | none => simp [smStep, hs]
    | some svc =>
      cases hc : svc.context with
      | some c => simp [smStep, hs, getOrCreateContext, hc]
      | none =>
        cases hf : s.storageFile with
        | some c => simp [smStep, hs, getOrCreateContext, hc, createContextFileEffect, hf]
        | none =>
          right
          simp [smStep, hs, getOrCreateContext, hc, createContextFileEffect, hf]
  | fetchPageOp => simp [smStep]
  | fetchUrlsOp => simp [smStep]
  | browseOp newState => simp [smStep]
  | cleanupOp => exact absurd rfl hop

theorem smRun_file_frame (ops : List SMOp) : ∀ s : ServerState, SMOp.cleanupOp ∉ ops →
    ((smRun s ops).storageFile = s.storageFile
      ∨ (s.storageFile = none ∧ (smRun s ops).storageFile = some emptyStateJson)) := by
  induction ops with
  | nil => intro s _; exact Or.inl rfl
  | cons op ops ih =>
    intro s h
    have hop : op ≠ SMOp.cleanupOp := fun e => h (e ▸ List.mem_cons_self op ops)
    have hops : SMOp.cleanupOp ∉ ops := fun hm => h (List.mem_cons_of_mem _ hm)
    have hrun := ih (smStep s op) hops
    have hstep := smStep_file s op hop
    have hd : smRun s (op :: ops) = smRun (smStep s op) ops := rfl
    rw [hd]
    rcases hstep with h1 | ⟨h1, h2⟩
    · rcases hrun with h3 | ⟨h3, h4⟩
      · exact Or.inl (by rw [h3, h1])
      · exact Or.inr ⟨by rw [← h1, h3], h4⟩
    · rcases hrun with h3 | ⟨h3, h4⟩
      · exact Or.inr ⟨h1, by rw [h3, h2]⟩
      · rw [h2] at h3; cases h3

/-- C9: the Session Manager's cleanup is the only operation that writes the
persisted session-state file: across any sequence of cleanup-free operations
(instance creation, browser/context acquisition, page fetches, batch calls,
browsing) the file is unchanged, except that context creation initializes a
missing file to the serialized empty state. -/
theorem session_file_written_only_by_cleanup (ops : List SMOp) (s : ServerState)
    (h : SMOp.cleanupOp ∉ ops) :
    (smRun s ops).storageFile = s.storageFile
      ∨ (s.storageFile = none ∧ (smRun s ops).storageFile = some emptyStateJson) :=
  smRun_file_frame ops s h

/-- C9 witness: a concrete cleanup-free run over every non-cleanup operation
leaves an existing session file untouched. -/
theorem session_file_written_only_by_cleanup_witness :
    (smRun { inst := none, storageFile := some "state0", contextState := "{}", nextId := 0 }
        [SMOp.createOrGetInstanceOp, SMOp.getOrCreateBrowserOp, SMOp.getOrCreateContextOp,
          SMOp.fetchPageOp, SMOp.browseOp "cookies", SMOp.fetchUrlsOp]).storageFile
      = some "state0"
    ∨ ((some "state0" : Option String) = none
        ∧ (smRun { inst := none, storageFile := some "state0", contextState := "{}", nextId := 0 }
            [SMOp.createOrGetInstanceOp, SMOp.getOrCreateBrowserOp, SMOp.getOrCreateContextOp,
              SMOp.fetchPageOp, SMOp.browseOp "cookies", SMOp.fetchUrlsOp]).storageFile
          = some emptyStateJson) :=
  session_file_written_only_by_cleanup _ _ (by decide)

/-! ## Batch output ordering and browser ownership -/

/-- Captured index of a settled result as the sort comparator reads it
(a.index || 0). -/
def resultIdx (r : FetchResult) : Nat := r.index.getD 0

theorem resultLe_iff (a b : FetchResult) :
    resultLe a b = true ↔ resultIdx a ≤ resultIdx b := by
  simp [resultLe, resultIdx]

theorem resultIdx_taskResult (opts : FetchOptions) (ext : ContentOracles)
    (pages : JSValue → PageModel) (i : Nat) (u : JSValue) :
    resultIdx (taskResult opts ext pages i u) = i := by
  simp [resultIdx, taskResult]

theorem taskResults_eq_range_map (opts : FetchOptions) (ext : ContentOracles)
    (pages : JSValue → PageModel) (urls : List JSValue) :
    taskResults opts ext pages urls
      = (List.range urls.length).map
          (fun i => taskResult opts ext pages i (urls.getD i JSValue.undefined)) := by
  apply List.ext_getElem
  · simp [taskResults]
  · intro n h1 h2
    have hn : n < urls.length := by simpa using h2
    simp [taskResults, List.getElem_enum, List.getD_eq_getElem urls JSValue.undefined hn,
      List.getElem?_eq_getElem hn]

theorem combineResults_of_perm (opts : FetchOptions) (ext : ContentOracles)
    (pages : JSValue → PageModel) (urls : List JSValue) (settled : List FetchResult)
    (hperm : settled.Perm (taskResults opts ext pages urls)) :
    combineResults settled
      = String.intercalate "\n\n" (urls.enum.map fun p =>
          segmentWrap p.1 (taskResult opts ext pages p.1 p.2).content) := by
  have hcanon := taskResults_eq_range_map opts ext pages urls
  have hperm2 : (settled.mergeSort resultLe).Perm
      ((List.range urls.length).map
        (fun i => taskResult opts ext pages i (urls.getD i JSValue.undefined))) :=
    (List.mergeSort_perm settled resultLe).trans (hcanon ▸ hperm)
  have htrans : ∀ a b c : FetchResult,
      resultLe a b = true → resultLe b c = true → resultLe a c = true := by
    intro a b c hab hbc
    rw [resultLe_iff] at *
    omega
  have htotal : ∀ a b : FetchResult, (resultLe a b || resultLe b a) = true := by
    intro a b
    rcases Nat.le_total (resultIdx a) (resultIdx b) with h | h
    · rw [Bool.or_eq_true, resultLe_iff]; exact Or.inl h
    · rw [Bool.or_eq_true, resultLe_iff, resultLe_iff]; exact Or.inr h
  have hpw : List.Pairwise (fun a b => resultLe a b = true) (settled.mergeSort resultLe) :=
    List.sorted_mergeSort htrans htotal settled
  have hmapsorted : List.Sorted (· ≤ ·) ((settled.mergeSort resultLe).map resultIdx) := by
    rw [List.Sorted, List.pairwise_map]
    exact hpw.imp (fun hab => (resultLe_iff _ _).mp hab)
  have hcomp : (resultIdx ∘ fun i => taskResult opts ext pages i (urls.getD i JSValue.undefined))
      = id := funext fun i => resultIdx_taskResult opts ext pages i _
  have hidxperm : ((settled.mergeSort resultLe).map resultIdx).Perm
      (List.range urls.length) := by
    have hmp := hperm2.map resultIdx
    rwa [List.map_map, hcomp, List.map_id] at hmp
  have hidx : (settled.mergeSort resultLe).map resultIdx = List.range urls.length :=
    List.eq_of_perm_of_sorted hidxperm hmapsorted (List.sorted_le_range _)
  have hmem : ∀ r ∈ settled.mergeSort resultLe,
      taskResult opts ext pages (resultIdx r) (urls.getD (resultIdx r) JSValue.undefined) = r := by
    intro r hr
    rcases List.mem_map.mp (hperm2.mem_iff.mp hr) with ⟨i, _, hgi⟩
    rw [← hgi, resultIdx_taskResult]
  have hsorted_eq : settled.mergeSort resultLe
      = (List.range urls.length).map
          (fun i => taskResult opts ext pages i (urls.getD i JSValue.undefined)) := by
    have hchain : ((settled.mergeSort resultLe).map resultIdx).map
        (fun i => taskResult opts ext pages i (urls.getD i JSValue.undefined))
        = settled.mergeSort resultLe := by
      rw [List.map_map]
      calc (settled.mergeSort resultLe).map
            ((fun i => taskResult opts ext pages i (urls.getD i JSValue.undefined)) ∘ resultIdx)
          = (settled.mergeSort resultLe).map id := List.map_congr_left hmem
        _ = settled.mergeSort resultLe := List.map_id _
    rw [← hchain, hidx]
  unfold combineResults
  rw [hsorted_eq]
  congr 1
  apply List.ext_getElem
  · simp
  · intro n h1 h2
    have hn : n < urls.length := by simpa using h2
    simp [List.getElem_enum, List.getD_eq_getElem urls JSValue.undefined hn,
      List.getElem?_eq_getElem hn]

/-- C1: for every batch and any completion order of its per-URL tasks (any
permutation of the captured-index results entering the aggregation step), the
combined text is exactly the one delimited segment per input URL, numbered
1..N in the originally captured index order; and the fetch_urls tool returns
exactly that text. -/
theorem fetchUrls_output_ordering (dbg : Bool) (args : FetchArgs) (ext : ContentOracles)
    (pages : JSValue → PageModel) (urls : List JSValue) (settled : List FetchResult)
    (hok : validateUrls args = Except.ok urls)
    (hperm : settled.Perm (taskResults (optionsOfArgs args) ext pages urls)) :
    combineResults settled
      = String.intercalate "\n\n" (urls.enum.map fun p =>
          segmentWrap p.1 (taskResult (optionsOfArgs args) ext pages p.1 p.2).content)
    ∧ (fetchUrlsRun dbg args ext pages).2 = Except.ok (combineResults settled) := by
  have hmain := combineResults_of_perm (optionsOfArgs args) ext pages urls settled hperm
  refine ⟨hmain, ?_⟩
  have hself := combineResults_of_perm (optionsOfArgs args) ext pages urls
    (taskResults (optionsOfArgs args) ext pages urls) (List.Perm.refl _)
  simp [fetchUrlsRun, hok, hself, hmain]

/-- Concrete batch of two URLs. -/
def urls2 : List JSValue := [JSValue.str "https://a.com", JSValue.str "https://b.com"]

/-- Argument object carrying the two-URL batch. -/
def batchArgs : FetchArgs := { urls := some (JSValue.arr urls2) }

/-- Page oracle where every page loads the same markup. -/
def constPages : JSValue → PageModel := fun _ => okPage "T" "<p>x</p>"

/-- Settled results arriving in reversed completion order. -/
def settledRev : List FetchResult :=
  (taskResults (optionsOfArgs batchArgs) extIdOracles constPages urls2).reverse

/-- C1 witness: the two-URL batch settled in reverse order still produces the
combined output of the original ordering. -/
theorem fetchUrls_output_ordering_witness :
    (fetchUrlsRun false batchArgs extIdOracles constPages).2
      = Except.ok (combineResults settledRev) :=
  (fetchUrls_output_ordering false batchArgs extIdOracles constPages urls2 settledRev
    rfl (List.reverse_perm _)).2

/-- C6 counterexample: a completed non-debug fetch_urls call has launched a
browser of its own and closed it, and never acquired the shared Session
Manager browser, contradicting the claim that the orchestrator only acquires
the shared singleton and leaves it alive after the call. -/
theorem fetchUrls_owns_browser_counterexample :
    BrowserEvent.launchOwnBrowser ∈ (fetchUrlsRun false batchArgs extIdOracles constPages).1
    ∧ BrowserEvent.closeOwnBrowser ∈ (fetchUrlsRun false batchArgs extIdOracles constPages).1
    ∧ BrowserEvent.acquireSharedBrowser ∉ (fetchUrlsRun false batchArgs extIdOracles constPages).1 := by
  refine ⟨?_, ?_, ?_⟩ <;> decide

theorem acquire_not_in_pageEvents (d : Bool) (u : JSValue) :
    BrowserEvent.acquireSharedBrowser ∉ pageEvents d u := by
  cases d <;> simp [pageEvents]

/-- C6 amended: the batch orchestrator launches a dedicated browser on every
validated call and, outside debug mode, closes that browser before returning;
it never acquires the shared Session Manager browser. The shared
BrowserService browser handle itself is created lazily by getOrCreateBrowser
and an existing handle is returned unchanged (reused until cleanup). -/
theorem fetchUrls_browser_lifecycle_amended (dbg : Bool) (args : FetchArgs)
    (ext : ContentOracles) (pages : JSValue → PageModel) (urls : List JSValue)
    (hok : validateUrls args = Except.ok urls) :
    BrowserEvent.launchOwnBrowser ∈ (fetchUrlsRun dbg args ext pages).1
    ∧ BrowserEvent.acquireSharedBrowser ∉ (fetchUrlsRun dbg args ext pages).1
    ∧ (dbg = false → BrowserEvent.closeOwnBrowser ∈ (fetchUrlsRun dbg args ext pages).1)
    ∧ (∀ svc s b, svc.browser = some b → getOrCreateBrowser svc s = (b, svc, s))
    ∧ (∀ svc s, svc.browser = none →
        (getOrCreateBrowser svc s).2.1.browser = some s.nextId) := by
  refine ⟨?_, ?_, ?_, ?_, ?_⟩
  · simp [fetchUrlsRun, hok]
  · simp [fetchUrlsRun, hok, List.mem_flatMap]
    exact fun u _ => acquire_not_in_pageEvents dbg u
  · intro hd
    subst hd
    simp [fetchUrlsRun, hok]
  · intro svc s b hb
    simp [getOrCreateBrowser, hb]
  · intro svc s hb
    simp [getOrCreateBrowser, hb]

/-- C6 amended witness: the concrete two-URL non-debug call launches and later
closes its own browser and never touches the shared one. -/
theorem fetchUrls_browser_lifecycle_amended_witness :
    BrowserEvent.launchOwnBrowser ∈ (fetchUrlsRun false batchArgs extIdOracles constPages).1
    ∧ BrowserEvent.acquireSharedBrowser ∉ (fetchUrlsRun false batchArgs extIdOracles constPages).1 :=
  ⟨(fetchUrls_browser_lifecycle_amended false batchArgs extIdOracles constPages urls2 rfl).1,
   (fetchUrls_browser_lifecycle_amended false batchArgs extIdOracles constPages urls2 rfl).2.1⟩
